import Mathlib

/-!
# Verification of the DentAnX annotation/export core

Shallow embedding of the annotation data model and the dataset-export
pipeline of `DentAnX/data/annotation_manager.py` and
`DentAnX/utils/landmarks.py`, together with theorems settling the
specification claims about them.

Numeric values carried by annotation records are embedded as rationals
(`ℚ`); trigonometric computations (`math.radians`, `math.cos`, `math.sin`)
are embedded over the reals (`ℝ`).
-/

namespace DentAnX

/-! ## `utils/landmarks.py` -/

/-- `LANDMARK_CLASSES = ["CEJ", "CREST", "APEX"]`. -/
def LANDMARK_CLASSES : List String := ["CEJ", "CREST", "APEX"]

/-- Python `str.upper()` on one ASCII character. -/
def upperChar (c : Char) : Char :=
  if 'a' ≤ c ∧ c ≤ 'z' then Char.ofNat (c.toNat - 32) else c

/-- Python `str.upper()` (over the ASCII labels this program handles). -/
def upperString (s : String) : String :=
  String.mk (s.toList.map upperChar)

/-- `normalize_class` (landmarks.py lines 14-19): uppercase the label and
fall back to `"CEJ"` when it is not an allowed landmark class. -/
def normalize_class (label : String) : String :=
  let l := upperString label
  if l ∈ LANDMARK_CLASSES then l else "CEJ"

/-- `BBOX_CLASSES = ["Unlabeled", "Tooth", "Crest", "PDL", "LD"]`. -/
def BBOX_CLASSES : List String := ["Unlabeled", "Tooth", "Crest", "PDL", "LD"]

/-! ## Data model (`annotation_manager.py`, record JSON schema) -/

/-- A landmark point dictionary `{x, y, class, radius?}`. -/
structure AnnPoint where
  x : ℚ
  y : ℚ
  cls : String
  radius : Option ℚ := none
deriving DecidableEq

/-- A bounding-box dictionary.  The export code distinguishes the OBB form
(`"cx" in bbox`) from the legacy axis-aligned form (`xmin..ymax`); the
`rotation` and `label` keys are optional in the JSON (`bbox.get("rotation", 0.0)`,
`bbox.get("label", "Unlabeled")`). -/
inductive Bbox
  | obb (cx cy width height : ℚ) (rotation : Option ℚ) (label : Option String)
  | aabb (xmin ymin xmax ymax : ℚ) (label : Option String)
deriving DecidableEq

/-- `bbox.get("label", "Unlabeled")`. -/
def bboxLabel : Bbox → String
  | .obb _ _ _ _ _ l => l.getD "Unlabeled"
  | .aabb _ _ _ _ l => l.getD "Unlabeled"

/-- Extracted oriented-box geometry `(cx, cy, w, h, rotation)`. -/
structure Geom where
  cx : ℚ
  cy : ℚ
  w : ℚ
  h : ℚ
  rotation : ℚ
deriving DecidableEq

/-- Geometry extraction shared by both exporters
(annotation_manager.py lines 229-240 and 283-294): the OBB form is read
directly with `rotation` defaulting to `0`; the legacy axis-aligned form is
converted to center/extent with `rotation = 0`. -/
def bboxGeometry : Bbox → Geom
  | .obb cx cy w h rot _ => ⟨cx, cy, w, h, rot.getD 0⟩
  | .aabb xmin ymin xmax ymax _ =>
      ⟨(xmin + xmax) / 2, (ymin + ymax) / 2, xmax - xmin, ymax - ymin, 0⟩

/-- An `AnnotationRecord` (annotation_manager.py lines 19-33): per-image
annotation file contents.  `width`/`height` are coerced with `int(...)` on
load, hence `ℤ` here.  Bone lines are polylines of `{x, y}` dictionaries. -/
structure AnnotationRecord where
  file_name : String
  width : ℤ
  height : ℤ
  points : List AnnPoint
  bboxes : List Bbox
  bone_lines : List (List (ℚ × ℚ))
deriving DecidableEq

/-! ## Fixed-precision formatting (`f"{c:.6f}"`)

The detection exporter prints each normalized coordinate with
`f"{c:.6f}"`: six digits after the decimal point, rounding to the nearest
multiple of `10⁻⁶`.  (CPython breaks exact ties to even; the exported
coordinates in the claims are never ties, so the tie-breaking convention is
irrelevant here and `round` — nearest, ties up — is used.) -/

/-- Left-pad a digit string with `'0'` to six characters. -/
def padZeros6 (s : String) : String :=
  String.mk (List.replicate (6 - s.length) '0') ++ s

/-- Render `n` (the coordinate scaled by `10⁶` and rounded) as a
fixed-point decimal string with six digits after the point. -/
def formatScaled (n : ℤ) : String :=
  (if n < 0 then "-" else "") ++
    toString (n.natAbs / 1000000) ++ "." ++ padZeros6 (toString (n.natAbs % 1000000))

/-- `f"{x:.6f}"` over any linear ordered field with a floor. -/
def formatFixed6 {K : Type} [LinearOrderedField K] [FloorRing K] (x : K) : String :=
  formatScaled (round (x * 1000000))

/-! ## Detection export (`export_bbox`, annotation_manager.py lines 209-266) -/

/-- `list.index(x)` as a partial lookup: position of the first occurrence,
`none` when absent (Python raises `ValueError` there). -/
def indexOfFrom : List String → String → ℕ → Option ℕ
  | [], _, _ => none
  | c :: rest, lab, i => if c = lab then some i else indexOfFrom rest lab (i + 1)

/-- Class-index lookup (lines 260-264):
`try: BBOX_CLASSES.index(label) - 1 except ValueError: 0`. -/
def bboxClassId (label : String) : ℤ :=
  match indexOfFrom BBOX_CLASSES label 0 with
  | some i => (i : ℤ) - 1
  | none => 0

/-- `corners_local = [(-hw, -hh), (hw, -hh), (hw, hh), (-hw, hh)]` (line 251). -/
def corners_local {K : Type} [LinearOrderedField K] (w h : K) : List (K × K) :=
  [(-(w / 2), -(h / 2)), (w / 2, -(h / 2)), (w / 2, h / 2), (-(w / 2), h / 2)]

/-- One local corner taken to global image space (lines 254-255):
`gx = cx + dx*cos_a - dy*sin_a; gy = cy + dx*sin_a + dy*cos_a`. -/
def cornerGlobal {K : Type} [LinearOrderedField K] (cx cy cos_a sin_a : K)
    (d : K × K) : K × K :=
  (cx + d.1 * cos_a - d.2 * sin_a, cy + d.1 * sin_a + d.2 * cos_a)

/-- `normalize_to_unit` (spec §4.1, code lines 256-257): divide by the image
dimensions and clamp each axis to `[0, 1]`:
`nx = max(0.0, min(1.0, gx / img_w)); ny = max(0.0, min(1.0, gy / img_h))`. -/
def normalize_to_unit {K : Type} [LinearOrderedField K] (c : K × K)
    (image_w image_h : K) : K × K :=
  (max 0 (min 1 (c.1 / image_w)), max 0 (min 1 (c.2 / image_h)))

/-- The flattened `corners_global` list of one label line (lines 251-258):
each local corner is rotated to global space, normalized, and its two
coordinates appended. -/
def bboxLineCoords {K : Type} [LinearOrderedField K]
    (img_w img_h cx cy w h cos_a sin_a : K) : List K :=
  ((corners_local w h).map
      (fun d => normalize_to_unit (cornerGlobal cx cy cos_a sin_a d) img_w img_h)).foldr
    (fun n acc => n.1 :: n.2 :: acc) []

/-- The text of one label line (without the trailing newline), line 266:
`f"{class_id} " + " ".join(f"{c:.6f}" for c in corners_global)`. -/
def bboxLabelLineCore {K : Type} [LinearOrderedField K] [FloorRing K]
    (img_w img_h cx cy w h cos_a sin_a : K) (label : String) : String :=
  toString (bboxClassId label) ++ " " ++
    " ".intercalate ((bboxLineCoords img_w img_h cx cy w h cos_a sin_a).map formatFixed6)

/-- `math.radians(deg) = deg * pi / 180`. -/
noncomputable def radians (deg : ℝ) : ℝ := deg * Real.pi / 180

/-- `obb_corners` (spec §4.1; code lines 246-255): the four OBB corners of a
box, local corners rotated by the box rotation (degrees) about its center. -/
noncomputable def obb_corners (cx cy w h rotation : ℝ) : List (ℝ × ℝ) :=
  let rad := radians rotation
  (corners_local w h).map (cornerGlobal cx cy (Real.cos rad) (Real.sin rad))

/-- The label line emitted for one bounding box (lines 222-266): `none` when
the box's label (defaulted to `"Unlabeled"`) is `"Unlabeled"` — such boxes
are skipped — otherwise the formatted OBB line. -/
noncomputable def export_bbox_line (img_w img_h : ℤ) (b : Bbox) : Option String :=
  let label := bboxLabel b
  if label = "Unlabeled" then none
  else
    let g := bboxGeometry b
    let rad := radians (g.rotation : ℝ)
    some (bboxLabelLineCore (img_w : ℝ) (img_h : ℝ) (g.cx : ℝ) (g.cy : ℝ)
      (g.w : ℝ) (g.h : ℝ) (Real.cos rad) (Real.sin rad) (bboxLabel b))

/-- The lines of one record's detection label file, in box order
(lines 221-266). -/
noncomputable def export_bbox_lines (record : AnnotationRecord) : List String :=
  record.bboxes.filterMap (export_bbox_line record.width record.height)

/-! ## Landmark export (`export_landmark`, annotation_manager.py lines 269-341) -/

/-- Python `Path(name).stem`: the file name without its final `.suffix`. -/
def pathStem (s : String) : String :=
  let parts := s.splitOn "."
  if parts.length ≤ 1 then s else ".".intercalate parts.dropLast

/-- `to_roi_local` (spec §4.1; code lines 308-320): inverse-rotate a point
about the box center into `[0,w] × [0,h]` ROI space:
`dx = px-cx; dy = py-cy;`
`rx = dx*cos_a + dy*sin_a + w/2; ry = -dx*sin_a + dy*cos_a + h/2`. -/
noncomputable def to_roi_local (px py cx cy w h rotation : ℝ) : ℝ × ℝ :=
  let rad := radians rotation
  let cos_a := Real.cos rad
  let sin_a := Real.sin rad
  let dx := px - cx
  let dy := py - cy
  (dx * cos_a + dy * sin_a + w / 2, -dx * sin_a + dy * cos_a + h / 2)

/-- One retained ROI point entry (code lines 323-329): its class, ROI-local
coordinates, and original global coordinates. -/
structure RoiPoint where
  cls : String
  x : ℝ
  y : ℝ
  global_x : ℚ
  global_y : ℚ

/-- The retained point list of one ROI (code lines 312-329): each record
point is mapped into ROI-local space and kept only when
`0 <= rx <= w and 0 <= ry <= h`. -/
noncomputable def roi_points (cx cy w h rotation : ℝ) (pts : List AnnPoint) :
    List RoiPoint :=
  pts.filterMap (fun pt =>
    let q := to_roi_local (pt.x : ℝ) (pt.y : ℝ) cx cy w h rotation
    if 0 ≤ q.1 ∧ q.1 ≤ w ∧ 0 ≤ q.2 ∧ q.2 ≤ h then
      some ⟨pt.cls, q.1, q.2, pt.x, pt.y⟩
    else none)

/-- The image-level operations producing one ROI crop (code lines 296-305):
the source image is rotated by `angle` degrees about `center`
(`im.rotate(rotation, center=(cx, cy), ...)`), the axis-aligned rectangle
`(left, top, right, bottom)` is cropped from the rotated image, and the
result is saved under `fileName`. -/
structure RoiCrop where
  center : ℚ × ℚ
  angle : ℚ
  left : ℚ
  top : ℚ
  right : ℚ
  bottom : ℚ
  fileName : String
deriving DecidableEq

/-- The ROI crop of the box at index `i` of a record with stem `stem`
(code lines 296-305): `left = cx - w/2; top = cy - h/2; right = cx + w/2;`
`bottom = cy + h/2`, saved as `f"{stem}_roi_{i}.png"`. -/
def export_roi_crop (stem : String) (i : ℕ) (b : Bbox) : RoiCrop :=
  let g := bboxGeometry b
  { center := (g.cx, g.cy)
    angle := g.rotation
    left := g.cx - g.w / 2
    top := g.cy - g.h / 2
    right := g.cx + g.w / 2
    bottom := g.cy + g.h / 2
    fileName := stem ++ "_roi_" ++ toString i ++ ".png" }

/-- All ROI crops of one record, indexed by box position
(`for i, bbox in enumerate(record.bboxes)`, line 281).  A record with no
boxes is skipped by the code (line 276), producing no crops — the same as
mapping over its empty box list. -/
def export_roi_crops (record : AnnotationRecord) : List RoiCrop :=
  record.bboxes.enum.map (fun ie => export_roi_crop (pathStem record.file_name) ie.1 ie.2)

/-- The crop rectangle as the specification claim words it:
"the axis-aligned rectangle `[cx-w/2, cy-w/2, cx+w/2, cy+h/2]`"
(note `cy - w/2` for the top edge).  Kept for comparison against the
rectangle the code computes. -/
def specCropRect (cx cy w h : ℚ) : ℚ × ℚ × ℚ × ℚ :=
  (cx - w / 2, cy - w / 2, cx + w / 2, cy + h / 2)

/-! ## Trainability classification (`export_datasets`, lines 152-181) -/

/-- The outcome of looking for and loading one image's annotations during
classification: no annotation file on disk, a load/decode failure
(caught and logged, line 177-179), or a loaded record. -/
inductive LoadResult
  | noAnnotationFile
  | loadFailure (message : String)
  | loaded (record : AnnotationRecord)
deriving DecidableEq

/-- `has_bbox = len(record.bboxes) > 0` (line 169). -/
def has_bbox (r : AnnotationRecord) : Bool := decide (0 < r.bboxes.length)

/-- `has_crest = any(p.get("class") == "CREST" for p in record.points)` (line 170). -/
def has_crest (r : AnnotationRecord) : Bool := r.points.any (fun p => p.cls == "CREST")

/-- `has_cej = any(p.get("class") == "CEJ" for p in record.points)` (line 171). -/
def has_cej (r : AnnotationRecord) : Bool := r.points.any (fun p => p.cls == "CEJ")

/-- Trainability (line 173): `has_bbox and has_crest and has_cej`. -/
def trainableRecord (r : AnnotationRecord) : Bool :=
  has_bbox r && has_crest r && has_cej r

/-- Classification of one scanned image's load outcome: only a
successfully loaded record meeting the trainability bar counts. -/
def classifyResult : LoadResult → Bool
  | .loaded r => trainableRecord r
  | _ => false

/-- The classification loop (lines 157-181): each scanned image either
contributes its record to `annotated_records` (trainable) or its file name
to `unannotated_files` (missing annotations, insufficient annotations, or a
load failure). -/
def classifyFiles : List (String × LoadResult) → List AnnotationRecord × List String
  | [] => ([], [])
  | (fname, res) :: rest =>
    let acc := classifyFiles rest
    match res with
    | .loaded r => if trainableRecord r then (r :: acc.1, acc.2) else (acc.1, fname :: acc.2)
    | _ => (acc.1, fname :: acc.2)

/-! ## Train/validation split (lines 184-193)

`random.seed(seed); random.shuffle(annotated_records)` draws from CPython's
Mersenne-Twister; the spec (§4.4, §9) requires only *a* documented
deterministic seeded generator driving a Fisher-Yates-style shuffle.  The
generator is modelled here as a 64-bit linear congruential generator; the
shuffle repeatedly extracts the element at the generator's next index. -/

/-- One step of the modelled deterministic pseudorandom generator
(Knuth's 64-bit MMIX LCG). -/
def lcg_next (s : ℕ) : ℕ :=
  (6364136223846793005 * s + 1442695040888963407) % 18446744073709551616

/-- Fuelled deterministic shuffle: at each step the element at index
`g % length` is moved to the front of the result and the generator
advances.  The fuel is instantiated with the list length. -/
def shuffleFuel {α : Type} : ℕ → ℕ → List α → List α
  | 0, _, _ => []
  | _ + 1, _, [] => []
  | n + 1, g, x :: xs =>
    let l := x :: xs
    let i := g % l.length
    l.get ⟨i, Nat.mod_lt _ (Nat.succ_pos _)⟩ :: shuffleFuel n (lcg_next g) (l.eraseIdx i)

/-- `random.seed(seed); random.shuffle(l)` modelled as the seeded
deterministic shuffle. -/
def shuffle {α : Type} (seed : ℤ) (l : List α) : List α :=
  shuffleFuel l.length (lcg_next seed.natAbs) l

/-- The train/validation split (lines 188-193): shuffle with the seeded
generator, then cut at `int(len(records) * (1 - val_split))`. -/
def export_split (records : List AnnotationRecord) (val_split : ℚ) (seed : ℤ) :
    List AnnotationRecord × List AnnotationRecord :=
  let shuffled := shuffle seed records
  let split_idx := (⌊(records.length : ℚ) * (1 - val_split)⌋).toNat
  (shuffled.take split_idx, shuffled.drop split_idx)

/-! ## The annotation store (`AnnotationManager`, lines 36-143)

The store state is the on-disk annotation directory (one JSON file per
saved record, keyed by the annotation file stem) plus the in-memory
`_cache` (keyed by image file name).  JSON serialization of a record is
lossless (`json.dump(asdict(record))` / `json.load` round-trip floats
exactly), so the disk holds `AnnotationRecord` values directly. -/

/-- `annotation_path` (lines 65-70): key of the record's JSON file,
`Path(file_name.replace("/", "_")).stem`. -/
def annotationKey (file_name : String) : String :=
  pathStem (file_name.replace "/" "_")

/-- Store state: annotation-directory contents and the in-memory cache. -/
structure StoreState where
  disk : List (String × AnnotationRecord)
  cache : List (String × AnnotationRecord)
deriving DecidableEq

/-- Key lookup in an association list. -/
def alistLookup {α : Type} (l : List (String × α)) (k : String) : Option α :=
  (l.find? (fun kv => kv.1 == k)).map (·.2)

/-- Key insertion/overwrite in an association list. -/
def alistInsert {α : Type} (l : List (String × α)) (k : String) (v : α) :
    List (String × α) :=
  (k, v) :: l.filter (fun kv => kv.1 != k)

/-- `save` (lines 104-110): write/overwrite the record's JSON file and
update the cache. -/
def StoreState.save (st : StoreState) (record : AnnotationRecord) : StoreState :=
  { disk := alistInsert st.disk (annotationKey record.file_name) record
    cache := alistInsert st.cache record.file_name record }

/-- `load` (lines 72-102): return the cached record if present; otherwise
read the JSON file if it exists; otherwise synthesize an empty record with
the fallback dimensions.  Either way the result is cached (but a
synthesized record is not written to disk). -/
def StoreState.load (st : StoreState) (file_name : String) (width height : ℤ) :
    AnnotationRecord × StoreState :=
  match alistLookup st.cache file_name with
  | some record => (record, st)
  | none =>
    match alistLookup st.disk (annotationKey file_name) with
    | some data =>
      (data, { st with cache := alistInsert st.cache file_name data })
    | none =>
      let record : AnnotationRecord := ⟨file_name, width, height, [], [], []⟩
      (record, { st with cache := alistInsert st.cache file_name record })

/-- Case-insensitive record order used by `export_all`'s final sort
(`images.sort(key=lambda rec: rec.file_name.lower())`, line 142). -/
def recordNameLe (a b : AnnotationRecord) : Prop :=
  a.file_name.toLower ≤ b.file_name.toLower

instance : DecidableRel recordNameLe := fun a b =>
  inferInstanceAs (Decidable (a.file_name.toLower ≤ b.file_name.toLower))

instance : IsTotal AnnotationRecord recordNameLe :=
  ⟨fun a b => le_total a.file_name.toLower b.file_name.toLower⟩

instance : IsTrans AnnotationRecord recordNameLe :=
  ⟨fun _ _ _ hab hbc => le_trans hab hbc⟩

/-- Stable sort of the directory listing (`sorted(annotation_dir.glob("*.json"))`,
line 127), modelled as a sort on the annotation-file keys. -/
def sortByKey (l : List (String × AnnotationRecord)) : List (String × AnnotationRecord) :=
  l.insertionSort (fun a b => a.1 ≤ b.1)

/-- `_load_all_records` (lines 123-143): re-read every JSON file in the
annotation directory in sorted order, skipping the reserved aggregate file
`points.json`, then stable-sort the records case-insensitively by
`file_name`.  The in-memory cache is never consulted. -/
def StoreState.load_all_records (st : StoreState) : List AnnotationRecord :=
  (((sortByKey st.disk).filter (fun kv => kv.1 != "points")).map (·.2)).insertionSort
    recordNameLe

/-- `export_all` (lines 112-121): the `{"images": [...]}` aggregate payload
written to `points.json` is exactly the re-read record list. -/
def StoreState.export_all (st : StoreState) : List AnnotationRecord :=
  st.load_all_records

/-! ## Approximate record equality up to the documented rounding precision
(spec §7: one decimal place for box geometry, three for point coordinates) -/

/-- Point equality up to three decimal places on coordinates. -/
def pointApprox (p q : AnnPoint) : Prop :=
  |p.x - q.x| ≤ 1 / 1000 ∧ |p.y - q.y| ≤ 1 / 1000 ∧ p.cls = q.cls ∧ p.radius = q.radius

/-- Box equality up to one decimal place on geometry. -/
def bboxApprox : Bbox → Bbox → Prop
  | .obb cx cy w h rot lab, .obb cx' cy' w' h' rot' lab' =>
    |cx - cx'| ≤ 1 / 10 ∧ |cy - cy'| ≤ 1 / 10 ∧ |w - w'| ≤ 1 / 10 ∧ |h - h'| ≤ 1 / 10 ∧
      |(rot.getD 0) - (rot'.getD 0)| ≤ 1 / 10 ∧ lab = lab'
  | .aabb x0 y0 x1 y1 lab, .aabb x0' y0' x1' y1' lab' =>
    |x0 - x0'| ≤ 1 / 10 ∧ |y0 - y0'| ≤ 1 / 10 ∧ |x1 - x1'| ≤ 1 / 10 ∧ |y1 - y1'| ≤ 1 / 10 ∧
      lab = lab'
  | _, _ => False

/-- Record equality up to the documented rounding precision. -/
def recordApproxEq (r s : AnnotationRecord) : Prop :=
  r.file_name = s.file_name ∧ r.width = s.width ∧ r.height = s.height ∧
    List.Forall₂ pointApprox r.points s.points ∧
    List.Forall₂ bboxApprox r.bboxes s.bboxes ∧
    r.bone_lines = s.bone_lines

/-! ## Specification-side statements used for comparison -/

/-- The rotation matrix `R(θ)` of the specification (§4.1) applied to a
vector: `R(θ)·v = (v₁ cos θ - v₂ sin θ, v₁ sin θ + v₂ cos θ)`. -/
noncomputable def specRotate (θ : ℝ) (v : ℝ × ℝ) : ℝ × ℝ :=
  (v.1 * Real.cos θ - v.2 * Real.sin θ, v.1 * Real.sin θ + v.2 * Real.cos θ)

/-- The end-to-end detection example of the spec (§8): a `1000×800` image
with a single box `{cx=500, cy=400, w=200, h=100, rotation=0, label="Tooth"}`. -/
def exampleRecord : AnnotationRecord :=
  ⟨"image.png", 1000, 800, [], [.obb 500 400 200 100 (some 0) (some "Tooth")], []⟩

/-! ## Helper lemmas -/

/-- Every coordinate of a detection label line is a clamped value. -/
theorem mem_bboxLineCoords_bounds (iw ih cx cy w h ca sa : ℝ) :
    ∀ x ∈ bboxLineCoords iw ih cx cy w h ca sa, 0 ≤ x ∧ x ≤ 1 := by
  intro x hx
  simp only [bboxLineCoords, corners_local, cornerGlobal, normalize_to_unit,
    List.map_cons, List.map_nil, List.foldr_cons, List.foldr_nil,
    List.mem_cons, List.not_mem_nil, or_false] at hx
  rcases hx with h | h | h | h | h | h | h | h <;> subst h <;>
    exact ⟨le_max_left _ _, max_le zero_le_one (min_le_left _ _)⟩

theorem normalize_class_crest : normalize_class "crest" = "CREST" := by decide

end DentAnX

namespace DentAnX

/-! ## Claim C5 (landmark ROI crop) -/

/-- C5 counterexample: at the box `{cx=500, cy=400, w=200, h=100}` the
code's crop rectangle is `(400, 350, 600, 450)` (top edge `cy - h/2`),
while the rectangle the claim states, `[cx-w/2, cy-w/2, cx+w/2, cy+h/2]`,
is `(400, 300, 600, 450)`. -/
theorem C5_cropRect_counterexample :
    (let c := export_roi_crop "image" 0 (.obb 500 400 200 100 (some 0) (some "Tooth"))
     (c.left, c.top, c.right, c.bottom)) ≠ specCropRect 500 400 200 100 := by
  norm_num [export_roi_crop, bboxGeometry, specCropRect, Prod.mk.injEq]

/-- C5 (amended): the ROI image for a box is produced by rotating the
source image about the box center `(cx, cy)` by `rotation` degrees and
cropping the axis-aligned rectangle `[cx-w/2, cy-h/2, cx+w/2, cy+h/2]`
from the rotated image, saved as `<stem>_roi_<index>.png` with `index` the
box's position within the record. -/
theorem C5_roi_crop :
    (∀ (stem : String) (i : ℕ) (cx cy w h : ℚ) (rot : Option ℚ) (lab : Option String),
        export_roi_crop stem i (.obb cx cy w h rot lab) =
          ⟨(cx, cy), rot.getD 0, cx - w / 2, cy - h / 2, cx + w / 2, cy + h / 2,
            stem ++ "_roi_" ++ toString i ++ ".png"⟩)
    ∧ (∀ record : AnnotationRecord,
        export_roi_crops record =
          record.bboxes.enum.map (fun ie =>
            export_roi_crop (pathStem record.file_name) ie.1 ie.2))
    ∧ export_roi_crop "image" 0 (.obb 500 400 200 100 (some 0) (some "Tooth")) =
        ⟨(500, 400), 0, 400, 350, 600, 450, "image_roi_0.png"⟩ :=
  ⟨fun _ _ _ _ _ _ _ _ => rfl, fun _ => rfl, by
    norm_num [export_roi_crop, bboxGeometry, RoiCrop.mk.injEq, Prod.mk.injEq]
    rfl⟩

/-! ## Claim C10 (case-sensitive class comparison) -/

/-- C10: trainability compares each point's class by exact, case-sensitive
string equality with `"CREST"` and `"CEJ"`; a record whose crest point is
stored as `"crest"` is not trainable, although the editor's hydrate path
(`normalize_class`) uppercases class labels before storing them. -/
theorem C10_case_sensitive_trainability :
    (∀ r : AnnotationRecord, trainableRecord r = true ↔
        (0 < r.bboxes.length ∧ (∃ p ∈ r.points, p.cls = "CREST") ∧
          (∃ p ∈ r.points, p.cls = "CEJ")))
    ∧ normalize_class "crest" = "CREST"
    ∧ trainableRecord
        ⟨"img.png", 100, 100, [⟨1, 2, "crest", none⟩, ⟨3, 4, "CEJ", none⟩],
          [.obb 5 5 2 2 none none], []⟩ = false
    ∧ trainableRecord
        ⟨"img.png", 100, 100, [⟨1, 2, normalize_class "crest", none⟩, ⟨3, 4, "CEJ", none⟩],
          [.obb 5 5 2 2 none none], []⟩ = true := by
  refine ⟨fun r => ?_, normalize_class_crest, by decide, by decide⟩
  simp [trainableRecord, has_bbox, has_crest, has_cej, List.any_eq_true, and_assoc]

/-! ## Claim C6 (obb corners) -/

/-- C6: at zero rotation `obb_corners` yields exactly the axis-aligned
corner polygon in winding order top-left, top-right, bottom-right,
bottom-left; at arbitrary rotation the corners are `(cx, cy)` plus the
rotation of `(±w/2, ±h/2)` by the rotation angle. -/
theorem C6_obb_corners :
    (∀ cx cy w h : ℝ, 0 < w → 0 < h →
        obb_corners cx cy w h 0 =
          [(cx - w / 2, cy - h / 2), (cx + w / 2, cy - h / 2),
            (cx + w / 2, cy + h / 2), (cx - w / 2, cy + h / 2)])
    ∧ (∀ cx cy w h rotation : ℝ,
        obb_corners cx cy w h rotation =
          (corners_local w h).map (fun d =>
            (cx + (specRotate (radians rotation) d).1,
              cy + (specRotate (radians rotation) d).2))) := by
  constructor
  · intro cx cy w h _ _
    simp only [obb_corners, radians, zero_mul, zero_div, Real.cos_zero, Real.sin_zero,
      corners_local, cornerGlobal, List.map_cons, List.map_nil, List.cons.injEq,
      Prod.mk.injEq, and_true]
    and_intros <;> ring
  · intro cx cy w h rotation
    simp only [obb_corners, corners_local, cornerGlobal, specRotate,
      List.map_cons, List.map_nil, List.cons.injEq, Prod.mk.injEq, and_true]
    refine ⟨⟨by ring, by ring⟩, ⟨by ring, by ring⟩, ⟨by ring, by ring⟩, by ring, by ring⟩

/-- C6 witness: the zero-rotation branch applied to the unit-like box
centered at the origin with width and height `2`. -/
theorem C6_obb_corners_witness :
    (0 : ℝ) < 2 ∧
      obb_corners 0 0 2 2 0 =
        [((0 : ℝ) - 2 / 2, (0 : ℝ) - 2 / 2), ((0 : ℝ) + 2 / 2, (0 : ℝ) - 2 / 2),
          ((0 : ℝ) + 2 / 2, (0 : ℝ) + 2 / 2), ((0 : ℝ) - 2 / 2, (0 : ℝ) + 2 / 2)] :=
  ⟨by norm_num, C6_obb_corners.1 0 0 2 2 (by norm_num) (by norm_num)⟩

/-! ## Claim C7 (unit normalization and clamping) -/

/-- C7: `normalize_to_unit` divides each coordinate by the matching image
dimension and clamps to `[0, 1]`; consequently every coordinate of a
detection label line lies in `[0, 1]`, and a labeled box partially outside
the image still produces a (truncated) line rather than being rejected. -/
theorem C7_normalize_to_unit :
    (∀ (c : ℚ × ℚ) (iw ih : ℚ), 0 < iw → 0 < ih →
        normalize_to_unit c iw ih = (max 0 (min 1 (c.1 / iw)), max 0 (min 1 (c.2 / ih))))
    ∧ (∀ iw ih cx cy w h ca sa : ℝ,
        ∀ x ∈ bboxLineCoords iw ih cx cy w h ca sa, 0 ≤ x ∧ x ≤ 1)
    ∧ (∀ (iw ih : ℤ) (cx cy w h : ℚ) (rot : Option ℚ) (lab : String),
        lab ≠ "Unlabeled" →
          (export_bbox_line iw ih (.obb cx cy w h rot (some lab))).isSome = true)
    ∧ normalize_to_unit ((-50 : ℚ), 900) 1000 800 = (0, 1) := by
  refine ⟨fun _ _ _ _ _ => rfl, mem_bboxLineCoords_bounds, ?_, ?_⟩
  · intro iw ih cx cy w h rot lab hlab
    simp [export_bbox_line, bboxLabel, hlab]
  · norm_num [normalize_to_unit, min_def, max_def]

/-- C7 witness: the clamp equation at a corner of the spec's end-to-end
example, and the truncated (not rejected) line of an out-of-bounds box. -/
theorem C7_normalize_to_unit_witness :
    (0 : ℚ) < 1000 ∧
      normalize_to_unit ((400 : ℚ), 350) 1000 800 =
        (max 0 (min 1 (400 / 1000)), max 0 (min 1 (350 / 800))) ∧
      ("Tooth" : String) ≠ "Unlabeled" ∧
      (export_bbox_line 1000 800 (.obb (-500) (-400) 200 100 (some 0) (some "Tooth"))).isSome
        = true :=
  ⟨by norm_num, C7_normalize_to_unit.1 (400, 350) 1000 800 (by norm_num) (by norm_num),
    by decide,
    C7_normalize_to_unit.2.2.1 1000 800 (-500) (-400) 200 100 (some 0) "Tooth" (by decide)⟩

/-! ## Claim C2 (deterministic train/val split) -/

/-- Moving the element at a valid index to the front permutes the list. -/
theorem cons_eraseIdx_perm {α : Type} :
    ∀ (l : List α) (i : ℕ) (h : i < l.length), (l.get ⟨i, h⟩ :: l.eraseIdx i).Perm l
  | _ :: _, 0, _ => List.Perm.refl _
  | a :: l, i + 1, h => by
    have hi : i < l.length := Nat.lt_of_succ_lt_succ h
    exact (List.Perm.swap a (l.get ⟨i, hi⟩) (l.eraseIdx i)).trans
      ((cons_eraseIdx_perm l i hi).cons a)

/-- The fuelled shuffle with fuel equal to the list length is a
permutation of its input. -/
theorem shuffleFuel_perm {α : Type} :
    ∀ (n g : ℕ) (l : List α), n = l.length → (shuffleFuel n g l).Perm l
  | 0, _, l, h => by
    cases l with
    | nil => exact List.Perm.refl _
    | cons a l => simp at h
  | _ + 1, _, [], _ => List.Perm.refl _
  | n + 1, g, x :: xs, h => by
    have hlt : g % (x :: xs).length < (x :: xs).length :=
      Nat.mod_lt _ (Nat.succ_pos _)
    have hlen : n = ((x :: xs).eraseIdx (g % (x :: xs).length)).length := by
      have := List.length_eraseIdx_add_one hlt
      omega
    exact ((shuffleFuel_perm n (lcg_next g) _ hlen).cons _).trans
      (cons_eraseIdx_perm (x :: xs) _ hlt)

/-- The seeded shuffle is a permutation of its input. -/
theorem shuffle_perm {α : Type} (seed : ℤ) (l : List α) : (shuffle seed l).Perm l :=
  shuffleFuel_perm l.length (lcg_next seed.natAbs) l rfl

/-- C2: the split shuffles the records with a deterministically seeded
generator, cuts the shuffled list at index `⌊n·(1-v)⌋`, the two splits
together are exactly the input records (in particular the lengths add to
`n`), and the split is reproducible: the same records, fraction, and seed
give the same partition. -/
theorem C2_split_deterministic :
    (∀ (records : List AnnotationRecord) (v : ℚ) (s : ℤ),
        export_split records v s =
          ((shuffle s records).take (⌊(records.length : ℚ) * (1 - v)⌋).toNat,
            (shuffle s records).drop (⌊(records.length : ℚ) * (1 - v)⌋).toNat))
    ∧ (∀ (records : List AnnotationRecord) (s : ℤ), (shuffle s records).Perm records)
    ∧ (∀ (records : List AnnotationRecord) (v : ℚ) (s : ℤ),
        (export_split records v s).1.length + (export_split records v s).2.length =
          records.length)
    ∧ (∀ (records : List AnnotationRecord) (v : ℚ) (s : ℤ),
        ((export_split records v s).1 ++ (export_split records v s).2).Perm records)
    ∧ (∀ (records : List AnnotationRecord) (v : ℚ) (s : ℤ),
        export_split records v s = export_split records v s) := by
  refine ⟨fun _ _ _ => rfl, fun records s => shuffle_perm s records, ?_, ?_, fun _ _ _ => rfl⟩
  · intro records v s
    have hp : ((export_split records v s).1 ++ (export_split records v s).2).Perm records := by
      simp only [export_split, List.take_append_drop]
      exact shuffle_perm s records
    simpa using hp.length_eq
  · intro records v s
    simp only [export_split, List.take_append_drop]
    exact shuffle_perm s records

/-! ## Claim C3 (trainable/held-out classification) -/

/-- C3: a scanned image is trainable iff its record loads and has at least
one box, one CREST point and one CEJ point; every other image — including
a load failure, which is demoted rather than raised — lands in the
held-out list, which is exactly the complement of the trainable set. -/
theorem C3_classification_complement :
    (∀ files : List (String × LoadResult),
        (classifyFiles files).1 = files.filterMap (fun f =>
          match f.2 with
          | .loaded r => if trainableRecord r then some r else none
          | _ => none) ∧
        (classifyFiles files).2 =
          (files.filter (fun f => !classifyResult f.2)).map (fun f => f.1) ∧
        (classifyFiles files).1.length + (classifyFiles files).2.length = files.length)
    ∧ (∀ r : AnnotationRecord, classifyResult (.loaded r) = true ↔
        (0 < r.bboxes.length ∧ (∃ p ∈ r.points, p.cls = "CREST") ∧
          (∃ p ∈ r.points, p.cls = "CEJ")))
    ∧ (∀ message, classifyResult (.loadFailure message) = false)
    ∧ classifyResult .noAnnotationFile = false := by
  refine ⟨?_, ?_, fun _ => rfl, rfl⟩
  · intro files
    induction files with
    | nil => exact ⟨rfl, rfl, rfl⟩
    | cons f rest ih =>
      obtain ⟨h1, h2, hlen⟩ := ih
      obtain ⟨fname, res⟩ := f
      cases res with
      | noAnnotationFile =>
        refine ⟨by simp [classifyFiles, List.filterMap_cons, h1],
          by simp [classifyFiles, classifyResult, List.filter_cons, h2],
          by simp only [classifyFiles, List.length_cons]; omega⟩
      | loadFailure message =>
        refine ⟨by simp [classifyFiles, List.filterMap_cons, h1],
          by simp [classifyFiles, classifyResult, List.filter_cons, h2],
          by simp only [classifyFiles, List.length_cons]; omega⟩
      | loaded r =>
        by_cases ht : trainableRecord r
        · refine ⟨by simp [classifyFiles, List.filterMap_cons, ht, h1],
            by simp [classifyFiles, classifyResult, List.filter_cons, ht, h2],
            by simp only [classifyFiles, ht, if_pos, List.length_cons]; omega⟩
        · refine ⟨by simp [classifyFiles, List.filterMap_cons, ht, h1],
            by simp [classifyFiles, classifyResult, List.filter_cons, ht, h2],
            by simp only [classifyFiles]; rw [if_neg ht]; simp only [List.length_cons]; omega⟩
  · intro r
    simp [classifyResult, trainableRecord, has_bbox, has_crest, has_cej,
      List.any_eq_true, and_assoc]

/-! ## Claim C8 (save/load round trip) -/

/-- Looking up the key just inserted returns the inserted value. -/
theorem alistLookup_insert_self {α : Type} (l : List (String × α)) (k : String) (v : α) :
    alistLookup (alistInsert l k v) k = some v := by
  unfold alistLookup alistInsert
  rw [List.find?_cons_of_pos _ (by simp)]
  rfl

theorem pointApprox_refl (p : AnnPoint) : pointApprox p p := by
  norm_num [pointApprox]

theorem bboxApprox_refl (b : Bbox) : bboxApprox b b := by
  cases b <;> norm_num [bboxApprox]

theorem recordApproxEq_refl (r : AnnotationRecord) : recordApproxEq r r :=
  ⟨rfl, rfl, rfl, List.forall₂_same.mpr fun p _ => pointApprox_refl p,
    List.forall₂_same.mpr fun b _ => bboxApprox_refl b, rfl⟩

/-- C8: saving a record and then loading it back under its own file name
yields the record again — exactly, hence in particular up to the
documented rounding precision (one decimal place for box geometry, three
for point coordinates). -/
theorem C8_save_load_roundtrip :
    ∀ (st : StoreState) (r : AnnotationRecord) (w h : ℤ),
      ((st.save r).load r.file_name w h).1 = r ∧
        recordApproxEq ((st.save r).load r.file_name w h).1 r := by
  intro st r w h
  have hl : ((st.save r).load r.file_name w h).1 = r := by
    simp [StoreState.load, StoreState.save, alistLookup_insert_self]
  exact ⟨hl, by rw [hl]; exact recordApproxEq_refl r⟩

/-! ## Claim C9 (export_all reads only the disk) -/

/-- C9: the aggregate written by `export_all` is a function of the on-disk
annotation files alone — records merely loaded or synthesized into the
cache do not appear — it skips the reserved `points.json`, and it is
sorted case-insensitively by file name. -/
theorem C9_export_all_disk_only :
    (∀ st₁ st₂ : StoreState, st₁.disk = st₂.disk → st₁.export_all = st₂.export_all)
    ∧ (∀ (st : StoreState) (fname : String) (w h : ℤ),
        (st.load fname w h).2.disk = st.disk ∧
          (st.load fname w h).2.export_all = st.export_all)
    ∧ (∀ (st : StoreState) (r : AnnotationRecord),
        r ∈ st.export_all ↔ ∃ k, (k, r) ∈ st.disk ∧ k ≠ "points")
    ∧ (∀ st : StoreState, (st.export_all).Sorted recordNameLe) := by
  refine ⟨?_, ?_, ?_, ?_⟩
  · intro st₁ st₂ h
    simp only [StoreState.export_all, StoreState.load_all_records, sortByKey, h]
  · intro st fname w h
    have hdisk : (st.load fname w h).2.disk = st.disk := by
      unfold StoreState.load
      cases alistLookup st.cache fname with
      | some record => rfl
      | none =>
        cases alistLookup st.disk (annotationKey fname) with
        | some data => rfl
        | none => rfl
    exact ⟨hdisk, by
      simp only [StoreState.export_all, StoreState.load_all_records, sortByKey, hdisk]⟩
  · intro st r
    simp only [StoreState.export_all, StoreState.load_all_records, List.mem_insertionSort,
      List.mem_map, List.mem_filter, sortByKey, bne_iff_ne, ne_eq]
    constructor
    · rintro ⟨⟨k, v⟩, ⟨hmem, hk⟩, rfl⟩
      exact ⟨k, hmem, hk⟩
    · rintro ⟨k, hmem, hk⟩
      exact ⟨(k, r), ⟨hmem, hk⟩, rfl⟩
  · intro st
    exact List.sorted_insertionSort recordNameLe _

/-- C9 witness: two stores with the same single-record disk but different
caches have identical `export_all` output. -/
theorem C9_export_all_witness :
    (StoreState.mk [("a", ⟨"a.png", 10, 10, [], [], []⟩)] []).disk =
        (StoreState.mk [("a", ⟨"a.png", 10, 10, [], [], []⟩)]
          [("b.png", ⟨"b.png", 20, 20, [], [], []⟩)]).disk ∧
      (StoreState.mk [("a", ⟨"a.png", 10, 10, [], [], []⟩)] []).export_all =
        (StoreState.mk [("a", ⟨"a.png", 10, 10, [], [], []⟩)]
          [("b.png", ⟨"b.png", 20, 20, [], [], []⟩)]).export_all :=
  ⟨rfl, C9_export_all_disk_only.1 _ _ rfl⟩

/-! ## Claim C4 (ROI-local point mapping) -/

/-- C4: the ROI-local mapping computes
`rx = dx·cosθ + dy·sinθ + w/2, ry = -dx·sinθ + dy·cosθ + h/2` with
`θ = radians rotation`, a point enters the ROI's retained list iff
`0 ≤ rx ≤ w ∧ 0 ≤ ry ≤ h` (pointwise, independently of the other points),
`(500,400)` maps to `(100,50)` for the box `{cx=500,cy=400,w=200,h=100,rotation=0}`,
and `(0,0)` is excluded from that ROI's retained list. -/
theorem C4_to_roi_local :
    (∀ px py cx cy w h rotation : ℝ,
        to_roi_local px py cx cy w h rotation =
          ((px - cx) * Real.cos (radians rotation) + (py - cy) * Real.sin (radians rotation)
              + w / 2,
            -(px - cx) * Real.sin (radians rotation) + (py - cy) * Real.cos (radians rotation)
              + h / 2))
    ∧ (∀ (cx cy w h rotation : ℝ) (pt : AnnPoint),
        roi_points cx cy w h rotation [pt] ≠ [] ↔
          (0 ≤ (to_roi_local (pt.x : ℝ) (pt.y : ℝ) cx cy w h rotation).1 ∧
            (to_roi_local (pt.x : ℝ) (pt.y : ℝ) cx cy w h rotation).1 ≤ w ∧
            0 ≤ (to_roi_local (pt.x : ℝ) (pt.y : ℝ) cx cy w h rotation).2 ∧
            (to_roi_local (pt.x : ℝ) (pt.y : ℝ) cx cy w h rotation).2 ≤ h))
    ∧ (∀ (cx cy w h rotation : ℝ) (pt : AnnPoint) (pts : List AnnPoint),
        roi_points cx cy w h rotation (pt :: pts) =
          roi_points cx cy w h rotation [pt] ++ roi_points cx cy w h rotation pts)
    ∧ to_roi_local 500 400 500 400 200 100 0 = (100, 50)
    ∧ roi_points 500 400 200 100 0 [⟨500, 400, "CEJ", none⟩, ⟨0, 0, "CREST", none⟩] =
        [⟨"CEJ", 100, 50, 500, 400⟩] := by
  refine ⟨fun _ _ _ _ _ _ _ => rfl, ?_, ?_, ?_, ?_⟩
  · intro cx cy w h rotation pt
    simp only [roi_points, List.filterMap_cons, List.filterMap_nil]
    split_ifs with hcond
    · simp [hcond]
    · simp [hcond]
  · intro cx cy w h rotation pt pts
    simp only [roi_points, List.filterMap_cons, List.filterMap_nil]
    split_ifs <;> simp
  · simp only [to_roi_local, radians, zero_mul, zero_div, Real.cos_zero, Real.sin_zero]
    norm_num
  · simp only [roi_points, List.filterMap_cons, List.filterMap_nil]
    split_ifs with hc1 hc2 hc2
    · exfalso
      norm_num [to_roi_local, radians] at hc2
    · simp only [List.cons.injEq, and_true]
      norm_num [RoiPoint.mk.injEq, to_roi_local, radians]
    · exfalso
      apply hc1
      norm_num [to_roi_local, radians]
    · exfalso
      apply hc1
      norm_num [to_roi_local, radians]

/-! ## Claim C1 (detection label lines) -/

/-- Fixed-precision formatting commutes with the cast `ℚ → ℝ`. -/
theorem formatFixed6_ratCast (q : ℚ) : formatFixed6 ((q : ℝ)) = formatFixed6 q := by
  unfold formatFixed6
  congr 1
  rw [show ((1000000 : ℝ)) = ((1000000 : ℚ) : ℝ) by norm_num, ← Rat.cast_mul, Rat.round_cast]

/-- The label-line coordinate list commutes with the cast `ℚ → ℝ`. -/
theorem bboxLineCoords_ratCast (iw ih cx cy w h ca sa : ℚ) :
    bboxLineCoords ((iw : ℝ)) (ih : ℝ) (cx : ℝ) (cy : ℝ) (w : ℝ) (h : ℝ) (ca : ℝ) (sa : ℝ) =
      List.map (fun q : ℚ => ((q : ℝ))) (bboxLineCoords iw ih cx cy w h ca sa) := by
  simp only [bboxLineCoords, corners_local, cornerGlobal, normalize_to_unit,
    List.map_cons, List.map_nil, List.foldr_cons, List.foldr_nil]
  norm_cast

/-- The whole label line commutes with the cast `ℚ → ℝ`: computing it over
the reals at rational inputs gives the rational computation. -/
theorem bboxLabelLineCore_ratCast (iw ih cx cy w h ca sa : ℚ) (lab : String) :
    bboxLabelLineCore ((iw : ℝ)) (ih : ℝ) (cx : ℝ) (cy : ℝ) (w : ℝ) (h : ℝ)
        (ca : ℝ) (sa : ℝ) lab =
      bboxLabelLineCore iw ih cx cy w h ca sa lab := by
  unfold bboxLabelLineCore
  rw [bboxLineCoords_ratCast, List.map_map]
  have heq : List.map (formatFixed6 ∘ fun q : ℚ => ((q : ℝ)))
        (bboxLineCoords iw ih cx cy w h ca sa)
      = List.map formatFixed6 (bboxLineCoords iw ih cx cy w h ca sa) :=
    List.map_congr_left fun q _ => formatFixed6_ratCast q
  rw [heq]

/-- A box whose label is (or defaults to) `"Unlabeled"` emits no label
line; every other box emits one. -/
theorem export_bbox_line_eq_none_iff (iw ih : ℤ) (b : Bbox) :
    export_bbox_line iw ih b = none ↔ bboxLabel b = "Unlabeled" := by
  simp only [export_bbox_line]
  split_ifs with hb
  · simp [hb]
  · simp [hb]

/-- Labels absent from the fixed class list fall back to class index 0. -/
theorem indexOfFrom_eq_none {l : List String} {lab : String} (h : lab ∉ l) :
    ∀ i, indexOfFrom l lab i = none := by
  induction l with
  | nil => intro i; rfl
  | cons c rest ih =>
    intro i
    have hc : c ≠ lab := fun he => h (he ▸ List.mem_cons_self c rest)
    simp only [indexOfFrom, if_neg hc]
    exact ih (fun hm => h (List.mem_cons_of_mem c hm)) (i + 1)

/-- One line per box whose label is not `"Unlabeled"`. -/
theorem export_bbox_lines_length (record : AnnotationRecord) :
    (export_bbox_lines record).length =
      (record.bboxes.filter (fun b => bboxLabel b != "Unlabeled")).length := by
  unfold export_bbox_lines
  induction record.bboxes with
  | nil => rfl
  | cons b rest ih =>
    by_cases hb : bboxLabel b = "Unlabeled"
    · have hnone : export_bbox_line record.width record.height b = none :=
        (export_bbox_line_eq_none_iff record.width record.height b).mpr hb
      simp [List.filterMap_cons, List.filter_cons, hnone, hb, ih]
    · have hsome : export_bbox_line record.width record.height b ≠ none :=
        fun hn => hb ((export_bbox_line_eq_none_iff record.width record.height b).mp hn)
      obtain ⟨line, hline⟩ := Option.ne_none_iff_exists.mp hsome
      simp [List.filterMap_cons, List.filter_cons, ← hline, hb, ih]

/-- C1: the detection label file holds exactly one line per box whose label
is not `"Unlabeled"` (a missing label counts as `"Unlabeled"` and emits no
line); each emitted line is the class index (position in `BBOX_CLASSES`
minus one, falling back to 0 for labels not in the list) followed by the
eight corners produced by `obb_corners` then `normalize_to_unit`, each
formatted to six decimals, space-separated; the spec's `1000×800` example
box emits exactly the predicted line. -/
theorem C1_detection_label_lines :
    (∀ record : AnnotationRecord,
        (export_bbox_lines record).length =
          (record.bboxes.filter (fun b => bboxLabel b != "Unlabeled")).length)
    ∧ (∀ (iw ih : ℤ) (b : Bbox),
        export_bbox_line iw ih b = none ↔ bboxLabel b = "Unlabeled")
    ∧ (∀ (iw ih : ℤ) (cx cy w h : ℚ) (rot : Option ℚ),
        export_bbox_line iw ih (.obb cx cy w h rot none) = none)
    ∧ (∀ (iw ih : ℤ) (cx cy w h rot : ℚ) (lab : String), lab ≠ "Unlabeled" →
        export_bbox_line iw ih (.obb cx cy w h (some rot) (some lab)) =
          some (toString (bboxClassId lab) ++ " " ++
            " ".intercalate
              ((((obb_corners (cx : ℝ) (cy : ℝ) (w : ℝ) (h : ℝ) (rot : ℝ)).map
                    (fun c => normalize_to_unit c ((iw : ℤ) : ℝ) ((ih : ℤ) : ℝ))).foldr
                  (fun n acc => n.1 :: n.2 :: acc) ([] : List ℝ)).map formatFixed6)))
    ∧ (∀ lab : String, lab ∉ BBOX_CLASSES → bboxClassId lab = 0)
    ∧ bboxClassId "Tooth" = 0
    ∧ export_bbox_lines exampleRecord =
        ["0 0.400000 0.437500 0.600000 0.437500 0.600000 0.562500 0.400000 0.562500"] := by
  refine ⟨export_bbox_lines_length, export_bbox_line_eq_none_iff, ?_, ?_, ?_, by decide, ?_⟩
  · intro iw ih cx cy w h rot
    rfl
  · intro iw ih cx cy w h rot lab hlab
    simp only [export_bbox_line, bboxLabel, bboxGeometry, Option.getD_some, if_neg hlab,
      bboxLabelLineCore, bboxLineCoords, obb_corners, List.map_map, Function.comp]
    rfl
  · intro lab hlab
    simp [bboxClassId, indexOfFrom_eq_none hlab]
  · have hline : export_bbox_line 1000 800 (.obb 500 400 200 100 (some 0) (some "Tooth")) =
        some (bboxLabelLineCore (1000 : ℚ) 800 500 400 200 100 1 0 "Tooth") := by
      simp only [export_bbox_line, bboxLabel, bboxGeometry, Option.getD_some]
      rw [if_neg (by decide)]
      have hrad : radians (((0 : ℚ)) : ℝ) = 0 := by
        simp [radians]
      rw [hrad, Real.cos_zero, Real.sin_zero]
      rw [show ((1 : ℝ)) = ((1 : ℚ) : ℝ) by norm_num,
        show ((0 : ℝ)) = ((0 : ℚ) : ℝ) by norm_num,
        show (((1000 : ℤ)) : ℝ) = ((1000 : ℚ) : ℝ) by norm_num,
        show (((800 : ℤ)) : ℝ) = ((800 : ℚ) : ℝ) by norm_num,
        bboxLabelLineCore_ratCast]
    have hcoords : bboxLineCoords (1000 : ℚ) 800 500 400 200 100 1 0 =
        [2/5, 7/16, 3/5, 7/16, 3/5, 9/16, 2/5, 9/16] := by
      norm_num [bboxLineCoords, corners_local, cornerGlobal, normalize_to_unit,
        min_def, max_def]
    have hfmt1 : formatFixed6 ((2 : ℚ)/5) = "0.400000" := by
      rw [formatFixed6, show round ((2 : ℚ)/5 * 1000000) = 400000 by norm_num [round_eq]]
      decide
    have hfmt2 : formatFixed6 ((7 : ℚ)/16) = "0.437500" := by
      rw [formatFixed6, show round ((7 : ℚ)/16 * 1000000) = 437500 by norm_num [round_eq]]
      decide
    have hfmt3 : formatFixed6 ((3 : ℚ)/5) = "0.600000" := by
      rw [formatFixed6, show round ((3 : ℚ)/5 * 1000000) = 600000 by norm_num [round_eq]]
      decide
    have hfmt4 : formatFixed6 ((9 : ℚ)/16) = "0.562500" := by
      rw [formatFixed6, show round ((9 : ℚ)/16 * 1000000) = 562500 by norm_num [round_eq]]
      decide
    have hcore : bboxLabelLineCore (1000 : ℚ) 800 500 400 200 100 1 0 "Tooth" =
        "0 0.400000 0.437500 0.600000 0.437500 0.600000 0.562500 0.400000 0.562500" := by
      rw [bboxLabelLineCore, hcoords]
      simp only [List.map_cons, List.map_nil, hfmt1, hfmt2, hfmt3, hfmt4]
      decide
    show List.filterMap (export_bbox_line 1000 800)
        [.obb 500 400 200 100 (some 0) (some "Tooth")] = _
    rw [List.filterMap_cons, hline, hcore]
    rfl

/-- C1 witness: the hypothesis-bearing branches applied at concrete
inputs — the `"Tooth"` box of the end-to-end example and a label foreign
to the class list. -/
theorem C1_detection_label_lines_witness :
    ("Tooth" : String) ≠ "Unlabeled" ∧
      export_bbox_line 1000 800 (.obb 500 400 200 100 (some 0) (some "Tooth")) =
        some (toString (bboxClassId "Tooth") ++ " " ++
          " ".intercalate
            ((((obb_corners ((500 : ℚ) : ℝ) ((400 : ℚ) : ℝ) ((200 : ℚ) : ℝ) ((100 : ℚ) : ℝ)
                  ((0 : ℚ) : ℝ)).map
                  (fun c => normalize_to_unit c (((1000 : ℤ)) : ℝ) (((800 : ℤ)) : ℝ))).foldr
                (fun n acc => n.1 :: n.2 :: acc) ([] : List ℝ)).map formatFixed6)) ∧
      ("Caries" : String) ∉ BBOX_CLASSES ∧ bboxClassId "Caries" = 0 :=
  ⟨by decide,
    C1_detection_label_lines.2.2.2.1 1000 800 500 400 200 100 0 "Tooth" (by decide),
    by decide,
    C1_detection_label_lines.2.2.2.2.1 "Caries" (by decide)⟩

end DentAnX
